import Mathlib

/-!
Verification development for the thesis-classifier pipeline.

The definitions below shallowly embed the pieces of the pipeline the
properties talk about: the response parsers (`parse_llm_response` in
`LLM_multitenant.py`, `parse_criticality_response` in `criti_score.py`),
the score aggregator (`calculate_criticality_score` in `criti_prompt.py`),
the model client retry loop (`classify_article` / `assess_classification`),
and the persistence steps (`upsert_classification`,
`update_criticality_score`, and the per-item driver logic of
`process_organization` / `process_classifications`).

JSON numbers are modelled as the exact decimals written in the text
(`Dec`); the score aggregator's arithmetic is modelled bit-faithfully as
IEEE-754 binary64 (`F64`: round-to-nearest, ties to even, 53-bit
significands; exponent overflow/underflow and NaN are not modelled, so
scores beyond the binary64 range are out of scope). `json.loads` is
modelled by an executable recursive-descent decoder covering the JSON
subset the pipeline exchanges: objects, arrays, strings with the common
escapes (`\u` escapes, `NaN`/`Infinity` literals are not modelled),
decimal numbers, `true`/`false`/`null`, with Python's last-key-wins
duplicate handling. Python string/regex operations used by the parsers
are modelled character-exactly on `List Char` (ASCII case folding).
-/

/-- Characters Python's `str.strip()` removes: space, tab, newline,
carriage return, vertical tab, form feed. -/
def isPyWs (c : Char) : Bool :=
  c = ' ' || c = '\t' || c = '\n' || c = '\r' || c = '\x0b' || c = '\x0c'

/-- `str.strip()` on a character list. -/
def pyStripL (l : List Char) : List Char :=
  ((l.dropWhile isPyWs).reverse.dropWhile isPyWs).reverse

/-- `str.strip()`. -/
def pyStrip (s : String) : String :=
  (pyStripL s.data).asString

/-- Whitespace skipped by the JSON grammar (`json.loads`). -/
def isJsonWs (c : Char) : Bool :=
  c = ' ' || c = '\t' || c = '\n' || c = '\r'

/-- Exact decimal numbers, `mant / 10 ^ scale`: the JSON numbers the
pipeline exchanges and the fixed weights are all decimal, and unlike `ℚ`
(whose normalizing arithmetic the kernel cannot evaluate) this carrier
computes by `rfl`/`decide`. `decVal` gives the rational value. -/
structure Dec where
  mant : ℤ
  scale : ℕ
deriving DecidableEq

/-- The rational value of a decimal. -/
def decVal (d : Dec) : ℚ := (d.mant : ℚ) / (10 : ℚ) ^ d.scale

/-- A natural number as a decimal. -/
def decOfNat (n : ℕ) : Dec := ⟨(n : ℤ), 0⟩

/-- A finite IEEE-754 binary64 value, `mant * 2 ^ exp` (the rounding
functions below always produce `|mant| ≤ 2 ^ 53`; exponent overflow and
NaN are not modelled). -/
structure F64 where
  mant : ℤ
  exp : ℤ
deriving DecidableEq

/-- The exact rational value of a binary64 number. -/
def f64Val (f : F64) : ℚ := (f.mant : ℚ) * (2 : ℚ) ^ f.exp

/-- Fuelled floor-log₂ (the kernel cannot reduce well-founded
recursion, so the fuel is explicit). -/
def log2fuel : ℕ → ℕ → ℕ
  | 0, _ => 0
  | fuel + 1, n => if 2 ≤ n then log2fuel fuel (n / 2) + 1 else 0

/-- `⌊log₂ n⌋` for `n ≥ 1`. -/
def nlog2 (n : ℕ) : ℕ := log2fuel n n

/-- Is `2 ^ j ≤ a / b`, decided in integer arithmetic. -/
def pow2LeQ (a b : ℕ) (j : ℤ) : Bool :=
  if 0 ≤ j then b * 2 ^ j.toNat ≤ a else b ≤ a * 2 ^ (-j).toNat

/-- The binary exponent of `a / b` (`a, b ≥ 1`): the `k` with
`2 ^ k ≤ a / b < 2 ^ (k + 1)`. -/
def findExp (a b : ℕ) : ℤ :=
  let k0 : ℤ := (nlog2 a : ℤ) - (nlog2 b : ℤ)
  if pow2LeQ a b k0 then k0 else k0 - 1

/-- The nearest natural number to `A / B`, ties to even. -/
def roundNTE (A B : ℕ) : ℕ :=
  if 2 * (A % B) < B then A / B
  else if B < 2 * (A % B) then A / B + 1
  else if 2 ∣ A / B then A / B
  else A / B + 1

/-- Round the rational `a / b` (`b > 0`) to the nearest binary64 value,
ties to even: scale the magnitude into the 53-bit mantissa window
`[2 ^ 52, 2 ^ 53)` and round the scaled fraction to an integer. -/
def roundQ (a : ℤ) (b : ℕ) : F64 :=
  if a = 0 then ⟨0, 0⟩
  else
    let s := a.natAbs
    let k := findExp s b
    let M := if 0 ≤ 52 - k then roundNTE (s * 2 ^ (52 - k).toNat) b
      else roundNTE s (b * 2 ^ (k - 52).toNat)
    ⟨if a < 0 then -(M : ℤ) else (M : ℤ), k - 52⟩

/-- Round an exact dyadic `m * 2 ^ e` to binary64. -/
def roundDyadic (m : ℤ) (e : ℤ) : F64 :=
  ⟨(roundQ m 1).mant, (roundQ m 1).exp + e⟩

/-- A Python number (exact int, or the double a JSON decimal decodes to)
as the binary64 operand it becomes in float arithmetic. -/
def flOfDec (d : Dec) : F64 := roundQ d.mant (10 ^ d.scale)

/-- Binary64 multiplication: exact dyadic product, then one rounding. -/
def flMul (x y : F64) : F64 := roundDyadic (x.mant * y.mant) (x.exp + y.exp)

/-- Binary64 addition: align exponents, exact dyadic sum, one rounding. -/
def flAdd (x y : F64) : F64 :=
  if x.exp ≤ y.exp then roundDyadic (x.mant + y.mant * 2 ^ (y.exp - x.exp).toNat) x.exp
  else roundDyadic (x.mant * 2 ^ (x.exp - y.exp).toNat + y.mant) y.exp

/-- The float literal `0.0`. -/
def f64Zero : F64 := ⟨0, 0⟩

/-- Python `round()` on a binary64 value: nearest integer to the exact
binary value, ties to even, in integer arithmetic. -/
def pyRoundF64 (f : F64) : ℤ :=
  if 0 ≤ f.exp then f.mant * 2 ^ f.exp.toNat
  else if 2 * (f.mant % 2 ^ (-f.exp).toNat) < 2 ^ (-f.exp).toNat then
    f.mant / 2 ^ (-f.exp).toNat
  else if (2 ^ (-f.exp).toNat : ℤ) < 2 * (f.mant % 2 ^ (-f.exp).toNat) then
    f.mant / 2 ^ (-f.exp).toNat + 1
  else if 2 ∣ f.mant / 2 ^ (-f.exp).toNat then f.mant / 2 ^ (-f.exp).toNat
  else f.mant / 2 ^ (-f.exp).toNat + 1

/-- JSON values as produced by `json.loads`. -/
inductive Json where
  | null
  | bool (b : Bool)
  | num (v : Dec)
  | str (s : String)
  | arr (elems : List Json)
  | obj (fields : List (String × Json))

/-- Python `dict.get`: building a dict from a JSON object keeps the last
value bound to a duplicated key, so lookup returns the last occurrence. -/
def dGet (fields : List (String × Json)) (k : String) : Option Json :=
  (fields.reverse.find? (fun p => p.1 = k)).map (fun p => p.2)

/-- Digit character to its value. -/
def digitVal (c : Char) : ℕ := c.toNat - '0'.toNat

/-- Decimal digits to a natural number. -/
def digitsToNat (ds : List Char) : ℕ :=
  ds.foldl (fun a c => a * 10 + digitVal c) 0

/-- JSON number grammar: `-? (0 | [1-9][0-9]*) (. [0-9]+)? ([eE][+-]?[0-9]+)?`,
read as an exact decimal. -/
def parseNumberBody (l : List Char) : Option (Dec × List Char) :=
  let (neg, l1) := match l with
    | '-' :: r => (true, r)
    | _ => (false, l)
  match l1 with
  | c :: _ =>
    if c.isDigit then
      let ds := l1.takeWhile Char.isDigit
      let r1 := l1.dropWhile Char.isDigit
      if c = '0' ∧ ds.length ≠ 1 then none
      else
        let (allDigits, scale, r2) : List Char × ℕ × List Char :=
          match r1 with
          | '.' :: r1x =>
            let fs := r1x.takeWhile Char.isDigit
            if fs = [] then (ds, 0, '.' :: r1x)
            else (ds ++ fs, fs.length, r1x.dropWhile Char.isDigit)
          | _ => (ds, 0, r1)
        let mant : ℤ := if neg then -(digitsToNat allDigits : ℤ) else (digitsToNat allDigits : ℤ)
        match r2 with
        | '.' :: _ => none
        | e :: r3 =>
          if e = 'e' ∨ e = 'E' then
            let (eneg, r4) := match r3 with
              | '-' :: rx => (true, rx)
              | '+' :: rx => (false, rx)
              | _ => (false, r3)
            let es := r4.takeWhile Char.isDigit
            if es = [] then none
            else
              let d0 : Dec := if eneg then ⟨mant, scale + digitsToNat es⟩
                else ⟨mant * 10 ^ digitsToNat es, scale⟩
              some (d0, r4.dropWhile Char.isDigit)
          else some (⟨mant, scale⟩, r2)
        | [] => some (⟨mant, scale⟩, r2)
    else none
  | [] => none

/-- JSON string escapes handled by the model (`\uXXXX` is not modelled). -/
def escChar (c : Char) : Option Char :=
  if c = '\"' then some '\"'
  else if c = '\\' then some '\\'
  else if c = '/' then some '/'
  else if c = 'b' then some '\x08'
  else if c = 'f' then some '\x0c'
  else if c = 'n' then some '\n'
  else if c = 'r' then some '\r'
  else if c = 't' then some '\t'
  else none

/-- Body of a JSON string after the opening quote: content and the rest of
the input after the closing quote. Raw control characters are rejected as
`json.loads` (strict mode) does. -/
def parseStrBody : ℕ → List Char → Option (List Char × List Char)
  | 0, _ => none
  | fuel + 1, l =>
    match l with
    | [] => none
    | c :: rest =>
      if c = '\"' then some ([], rest)
      else if c = '\\' then
        match rest with
        | e :: rest2 =>
          match escChar e with
          | some u => (parseStrBody fuel rest2).map (fun p => (u :: p.1, p.2))
          | none => none
        | [] => none
      else if c.toNat < 32 then none
      else (parseStrBody fuel rest).map (fun p => (c :: p.1, p.2))

mutual

/-- One JSON value starting at the head of the input (whitespace already
skipped); returns the value and the unconsumed rest. -/
def parseVal : ℕ → List Char → Option (Json × List Char)
  | 0, _ => none
  | fuel + 1, l =>
    match l with
    | [] => none
    | c :: rest =>
      if c = '\x7b' then
        let r1 := rest.dropWhile isJsonWs
        match r1 with
        | '\x7d' :: r2 => some (.obj [], r2)
        | _ =>
          match parseMembers fuel r1 with
          | some (fs, r2) => some (.obj fs, r2)
          | none => none
      else if c = '[' then
        let r1 := rest.dropWhile isJsonWs
        match r1 with
        | ']' :: r2 => some (.arr [], r2)
        | _ =>
          match parseElems fuel r1 with
          | some (vs, r2) => some (.arr vs, r2)
          | none => none
      else if c = '\"' then
        match parseStrBody (rest.length + 1) rest with
        | some (content, r2) => some (.str content.asString, r2)
        | none => none
      else if c = 't' then
        match rest with
        | 'r' :: 'u' :: 'e' :: r2 => some (.bool true, r2)
        | _ => none
      else if c = 'f' then
        match rest with
        | 'a' :: 'l' :: 's' :: 'e' :: r2 => some (.bool false, r2)
        | _ => none
      else if c = 'n' then
        match rest with
        | 'u' :: 'l' :: 'l' :: r2 => some (.null, r2)
        | _ => none
      else
        match parseNumberBody l with
        | some (q, r2) => some (.num q, r2)
        | none => none

/-- Members of a JSON object, input positioned at the opening quote of the
first key; consumes through the closing brace. -/
def parseMembers : ℕ → List Char → Option (List (String × Json) × List Char)
  | 0, _ => none
  | fuel + 1, l =>
    match l with
    | '\"' :: rest =>
      match parseStrBody (rest.length + 1) rest with
      | some (key, r1) =>
        match r1.dropWhile isJsonWs with
        | ':' :: r3 =>
          match parseVal fuel (r3.dropWhile isJsonWs) with
          | some (v, r4) =>
            match r4.dropWhile isJsonWs with
            | ',' :: r6 =>
              match parseMembers fuel (r6.dropWhile isJsonWs) with
              | some (fs, r7) => some ((key.asString, v) :: fs, r7)
              | none => none
            | '\x7d' :: r6 => some ([(key.asString, v)], r6)
            | _ => none
          | none => none
        | _ => none
      | none => none
    | _ => none

/-- Elements of a JSON array, input positioned at the first element;
consumes through the closing bracket. -/
def parseElems : ℕ → List Char → Option (List Json × List Char)
  | 0, _ => none
  | fuel + 1, l =>
    match parseVal fuel l with
    | some (v, r1) =>
      match r1.dropWhile isJsonWs with
      | ',' :: r2 =>
        match parseElems fuel (r2.dropWhile isJsonWs) with
        | some (vs, r3) => some (v :: vs, r3)
        | none => none
      | ']' :: r2 => some ([v], r2)
      | _ => none
    | none => none

end

/-- `json.loads`: decode one JSON document, tolerating surrounding
whitespace, rejecting trailing data. -/
def jsonDecode (s : String) : Option Json :=
  let l := s.data
  match parseVal (l.length + 1) (l.dropWhile isJsonWs) with
  | some (v, rest) => if rest.dropWhile isJsonWs = [] then some v else none
  | none => none

/-- The greedy `\s*\n` tail of the leading-fence regex: consume the longest
all-whitespace prefix that ends with a newline, returning what follows, or
`none` when no such prefix exists (regex backtracking keeps the last
newline inside the whitespace run). -/
def chopToLastNl : List Char → Option (List Char)
  | [] => none
  | c :: rest =>
    if isPyWs c then
      match chopToLastNl rest with
      | some r => some r
      | none => if c = '\n' then some rest else none
    else none

/-- `re.sub(r'^```(?:json)?\s*\n', '', s)`: remove a leading code-fence
line when the anchored pattern matches, else leave the input unchanged. -/
def tryLeadFence (l : List Char) : List Char :=
  match l with
  | '`' :: '`' :: '`' :: rest =>
    match rest with
    | 'j' :: 's' :: 'o' :: 'n' :: r2 =>
      match chopToLastNl r2 with
      | some r => r
      | none =>
        match chopToLastNl rest with
        | some r => r
        | none => l
    | _ =>
      match chopToLastNl rest with
      | some r => r
      | none => l
  | _ => l

/-- `re.sub(r'\n```\s*$', '', s)`: remove a trailing fence (newline, three
backticks, trailing whitespace) when present. -/
def tryTrailFence (l : List Char) : List Char :=
  match (l.reverse.dropWhile isPyWs) with
  | '`' :: '`' :: '`' :: '\n' :: rest => rest.reverse
  | _ => l

/-- The code-fence removal both parsers perform on the stripped response:
only applied when the text starts with three backticks. -/
def removeFences (l : List Char) : List Char :=
  if l.take 3 = ['`', '`', '`'] then tryTrailFence (tryLeadFence l) else l

/-- The structured result of `parse_llm_response`: the
(classification, explanation, advice) triple, each component `None`-able. -/
structure Triple where
  classification : Option String
  explanation : Option String
  advice : Option String
deriving DecidableEq

/-- `data.get(k, '').strip()` for a decoded JSON object: `some` of the
stripped string when the field is a string or missing (the default `''`),
`none` when the field holds a non-string (Python raises `AttributeError`,
sending the parser to its fallback path). -/
def getStrStripped (fields : List (String × Json)) (k : String) : Option String :=
  match dGet fields k with
  | none => some ""
  | some (.str s) => some (pyStrip s)
  | some _ => none

/-- The classification labels accepted verbatim by `parse_llm_response`. -/
def validClassification (v : String) : Bool :=
  v = "Threat" || v = "Opportunity" || v = "Neutral"

/-- The JSON-mode branch of `parse_llm_response` on a decoded object:
`none` when a field extraction raises (non-string field), sending the
parser to the fallback path. -/
def jsonModeResult (fields : List (String × Json)) : Option Triple :=
  match getStrStripped fields "classification",
        getStrStripped fields "explanation",
        getStrStripped fields "advice" with
  | some c, some e, some a =>
    let c := if validClassification c then c else "Error: Unknown"
    let e := if e = "" then "No explanation provided" else e
    let a := if a = "" then "No specific advice provided" else a
    some ⟨some c, some e, some a⟩
  | _, _, _ => none

/-- Case-insensitive literal match of a (lowercase) pattern at the head of
the input. -/
def matchesCI (p l : List Char) : Bool :=
  (l.take p.length).map Char.toLower = p

/-- `re.sub(p1 + '|' + p2, '', line, flags=re.IGNORECASE)` for literal
alternatives: remove every occurrence, leftmost first, preferring `p1`. -/
def removeCI (p1 p2 : List Char) : ℕ → List Char → List Char
  | 0, l => l
  | fuel + 1, l =>
    if matchesCI p1 l then removeCI p1 p2 fuel (l.drop p1.length)
    else if matchesCI p2 l then removeCI p1 p2 fuel (l.drop p2.length)
    else
      match l with
      | [] => []
      | c :: rest => c :: removeCI p1 p2 fuel rest

/-- Remove every case-insensitive occurrence of either literal pattern. -/
def removeAllCI (p1 p2 l : List Char) : List Char :=
  removeCI p1 p2 l.length l

/-- One pass of the fallback line scan of `parse_llm_response`: later
matching lines overwrite earlier ones; a line feeds at most one of the
three slots (`elif` chain). -/
def scanLines : List (List Char) → Option String × Option String × Option String →
    Option String × Option String × Option String
  | [], acc => acc
  | line :: rest, (c, e, a) =>
    let ll := pyStripL (line.map Char.toLower)
    if ("classification:".data.isPrefixOf ll) || ("**classification:**".data.isPrefixOf ll) then
      scanLines rest
        (some (pyStripL (removeAllCI "**classification:**".data "classification:".data line)).asString, e, a)
    else if ("explanation:".data.isPrefixOf ll) || ("**explanation:**".data.isPrefixOf ll) then
      scanLines rest
        (c, some (pyStripL (removeAllCI "**explanation:**".data "explanation:".data line)).asString, a)
    else if ("advice:".data.isPrefixOf ll) || ("**advice:**".data.isPrefixOf ll) then
      scanLines rest
        (c, e, some (pyStripL (removeAllCI "**advice:**".data "advice:".data line)).asString)
    else scanLines rest (c, e, a)

/-- The raw (classification, explanation, advice) slots the fallback line
scan extracts from a response. -/
def scanResponse (s : String) : Option String × Option String × Option String :=
  scanLines ((pyStripL s.data).splitOn '\n') (none, none, none)

/-- Python string truthiness for an optional string: `None` and `''` are
falsy. -/
def optTruthy : Option String → Bool
  | none => false
  | some s => s ≠ ""

/-- The fallback (line-prefix) branch of `parse_llm_response`, operating on
the original raw response text. -/
def fallbackParse (s : String) : Triple :=
  let (c, e, a) := scanResponse s
  let c := match c with
    | none => none
    | some v => if v ≠ "" ∧ ¬ validClassification v then some "Error: Unknown" else some v
  let e := if optTruthy e then e.getD "" else (if s = "" then "No explanation provided" else s)
  let a := if optTruthy a then a.getD "" else "No specific advice provided"
  ⟨c, some e, some a⟩

/-- `parse_llm_response` (`LLM_multitenant.py`): strip, remove a code
fence, try JSON mode, fall back to the line-prefix scan on any decode or
extraction failure. `none` input models Python `None`. -/
def parse_llm_response (response : Option String) : Triple :=
  match response with
  | none => ⟨none, none, none⟩
  | some s =>
    if s = "" then ⟨none, none, none⟩
    else
      let rc := removeFences (pyStripL s.data)
      match jsonDecode rc.asString with
      | some (.obj fields) =>
        match jsonModeResult fields with
        | some t => t
        | none => fallbackParse s
      | some _ => fallbackParse s
      | none => fallbackParse s

/-- Python `round()` on an exact rational value: round half to even (then
`int()`); the specification-side counterpart of `pyRoundDec`. -/
def pyRound (q : ℚ) : ℤ :=
  if q - ⌊q⌋ < 1 / 2 then ⌊q⌋
  else if 1 / 2 < q - ⌊q⌋ then ⌊q⌋ + 1
  else if 2 ∣ ⌊q⌋ then ⌊q⌋
  else ⌊q⌋ + 1

/-- The six criterion names, in the order the source lists them. -/
def criteriaNames : List String :=
  ["correctness_factual_soundness", "relevance_alignment", "reasoning_transparency",
   "practical_usefulness_actionability", "clarity_communication_quality",
   "safety_bias_appropriateness"]

/-- The fixed weights of `calculate_criticality_score` (`criti_prompt.py`),
in the iteration order of its `weights` dict. -/
def criticalityWeights : List (String × Dec) :=
  [("correctness_factual_soundness", ⟨25, 2⟩), ("relevance_alignment", ⟨20, 2⟩),
   ("reasoning_transparency", ⟨20, 2⟩), ("practical_usefulness_actionability", ⟨20, 2⟩),
   ("clarity_communication_quality", ⟨10, 2⟩), ("safety_bias_appropriateness", ⟨5, 2⟩)]

/-- Numeric view of a JSON value under Python arithmetic: numbers are
numbers, booleans count as 0/1, anything else raises `TypeError` when
multiplied by a float. -/
def jsonNumVal : Json → Option Dec
  | .num v => some v
  | .bool b => some (decOfNat (if b then 1 else 0))
  | _ => none

/-- The `weighted_sum` accumulation loop of `calculate_criticality_score`:
`scores.get(criterion, 0) * weight` summed over the weights, `TypeError`
(modelled as `.error ()`) on a present non-numeric score. The source
accumulates IEEE-754 doubles: each score and each weight literal becomes
the nearest binary64 value, and every product and running sum is rounded
to binary64. -/
def weightedSumGo : List (String × Dec) → List (String × Json) → F64 → Except Unit F64
  | [], _, acc => .ok acc
  | (k, w) :: rest, scores, acc =>
    match jsonNumVal ((dGet scores k).getD (.num (decOfNat 0))) with
    | some q => weightedSumGo rest scores (flAdd acc (flMul (flOfDec q) (flOfDec w)))
    | none => .error ()

/-- `calculate_criticality_score` (`criti_prompt.py`): weighted sum over
the six criteria with missing entries defaulting to 0, accumulated in
binary64 as the source does, rounded to the nearest integer (ties to
even, on the binary value) and clamped to [0, 100]. The `.error` case is
Python's uncaught `TypeError` on a non-numeric score value. -/
def calculate_criticality_score (scores : List (String × Json)) : Except Unit ℤ :=
  match weightedSumGo criticalityWeights scores f64Zero with
  | .ok ws => .ok (max 0 (min 100 (pyRoundF64 ws)))
  | .error e => .error e

/-- The structured result of a successful `parse_criticality_response`:
final score, overall summary, the scores dict and the explanations dict
as returned to the caller. -/
structure AssessResult where
  final_score : ℤ
  overall_summary : String
  scores : List (String × Json)
  explanations : List (String × Json)

/-- The strict (JSON) branch of `parse_criticality_response` on a decoded
object. `none` models the `AttributeError` of `.strip()` on a non-string
`overall_summary`, which sends the parser to its regex fallback; inside
`some`, `.error ()` is the uncaught `TypeError` of the score aggregation
and `.ok none` the all-null return for a missing/empty/non-dict `scores`. -/
def strictAssess (fields : List (String × Json)) : Option (Except Unit (Option AssessResult)) :=
  match (dGet fields "overall_summary").getD (.str "") with
  | .str osRaw =>
    let os0 := pyStrip osRaw
    some (
      match dGet fields "scores" with
      | some (.obj fs) =>
        if fs.isEmpty then .ok none
        else
          let expls := match dGet fields "explanations" with
            | some (.obj es) => es
            | _ => []
          match calculate_criticality_score fs with
          | .error e => .error e
          | .ok v =>
            let os := if os0 = "" then "No overall summary provided" else os0
            .ok (some ⟨v, os, fs, expls⟩)
      | _ => .ok none)
  | _ => none

/-- `re.search` for a pattern recognizer: scan positions left to right,
return the first capture. -/
def searchGo {α : Type} (tryAt : List Char → Option α) : ℕ → List Char → Option α
  | 0, _ => none
  | fuel + 1, l =>
    match tryAt l with
    | some g => some g
    | none =>
      match l with
      | [] => none
      | _ :: rest => searchGo tryAt fuel rest

/-- `re.search` over a whole text. -/
def reSearch {α : Type} (tryAt : List Char → Option α) (l : List Char) : Option α :=
  searchGo tryAt (l.length + 1) l

/-- Match `"key"\s*:\s*` at the head of the input, returning what follows. -/
def afterKeyColon (key : List Char) (l : List Char) : Option (List Char) :=
  let pat := '\"' :: (key ++ ['\"'])
  if pat.isPrefixOf l then
    match (l.drop pat.length).dropWhile isPyWs with
    | ':' :: r2 => some (r2.dropWhile isPyWs)
    | _ => none
  else none

/-- Recognizer for `r'"scores"\s*:\s*\{([^}]+)\}'` at the current
position: the captured brace-free run. -/
def tryScoresAt (l : List Char) : Option (List Char) :=
  match afterKeyColon "scores".data l with
  | some ('\x7b' :: r2) =>
    let g := r2.takeWhile (fun c => c ≠ '\x7d')
    if g = [] then none
    else
      match r2.drop g.length with
      | '\x7d' :: _ => some g
      | _ => none
  | _ => none

/-- Recognizer for `rf'"{key}"\s*:\s*(\d+)'` at the current position. -/
def tryNumAt (key : List Char) (l : List Char) : Option ℕ :=
  match afterKeyColon key l with
  | some r =>
    let ds := r.takeWhile Char.isDigit
    if ds = [] then none else some (digitsToNat ds)
  | none => none

/-- Recognizer for `rf'"{key}"\s*:\s*"([^"]+)"'` at the current position. -/
def tryStrAt (key : List Char) (l : List Char) : Option String :=
  match afterKeyColon key l with
  | some ('\"' :: r2) =>
    let g := r2.takeWhile (fun c => c ≠ '\"')
    if g = [] then none
    else
      match r2.drop g.length with
      | '\"' :: _ => some g.asString
      | _ => none
  | _ => none

/-- The regex fallback branch of `parse_criticality_response`, operating on
the original raw response text. -/
def assessFallback (s : String) : Except Unit (Option AssessResult) :=
  match reSearch tryScoresAt s.data with
  | some txt =>
    let scores := criteriaNames.filterMap
      (fun c => (reSearch (tryNumAt c.data) txt).map (fun n => (c, Json.num (decOfNat n))))
    let expls := criteriaNames.filterMap
      (fun c => (reSearch (tryStrAt c.data) s.data).map (fun t => (c, Json.str t)))
    if scores.isEmpty then .ok none
    else
      match calculate_criticality_score scores with
      | .ok v =>
        let os := match reSearch (tryStrAt "overall_summary".data) s.data with
          | some g => g
          | none => (s.data.take 200).asString
        .ok (some ⟨v, os, scores, expls⟩)
      | .error _ => .ok none
  | none => .ok none

/-- `parse_criticality_response` (`criti_score.py`): strip, remove a code
fence, try the strict JSON path, fall back to regex recovery on decode or
extraction failure. `.ok none` is the all-null `(None, None, None, None)`
return; `.error ()` is an uncaught `TypeError`. -/
def parse_criticality_response (response : Option String) : Except Unit (Option AssessResult) :=
  match response with
  | none => .ok none
  | some s =>
    if s = "" then .ok none
    else
      let rc := removeFences (pyStripL s.data)
      match jsonDecode rc.asString with
      | some (.obj fields) =>
        match strictAssess fields with
        | some r => r
        | none => assessFallback s
      | some _ => assessFallback s
      | none => assessFallback s

/-- A row of `article_classifications` as written by
`upsert_classification` (the columns the statement supplies; timestamp
columns are server-side `NOW()` and not modelled). -/
structure ClassificationRow where
  article_id : ℕ
  organization_id : ℕ
  classification : Option String
  explanation : Option String
  advice : Option String
  reasoning : Option String
  status : String
deriving DecidableEq

/-- Key equality on (article_id, organization_id), the conflict target of
the upsert. -/
def sameKey (r x : ClassificationRow) : Bool :=
  x.article_id = r.article_id ∧ x.organization_id = r.organization_id

/-- `upsert_classification` (`LLM_multitenant.py`): `INSERT ... ON CONFLICT
(article_id, organization_id) DO UPDATE SET` over a table modelled as a
row list — a conflicting row has its payload columns overwritten, else the
row is appended. -/
def upsert_classification (table : List ClassificationRow) (r : ClassificationRow) :
    List ClassificationRow :=
  if table.any (sameKey r) then
    table.map (fun x =>
      if sameKey r x then
        { x with
          classification := r.classification
          explanation := r.explanation
          advice := r.advice
          reasoning := r.reasoning
          status := r.status }
      else x)
  else table ++ [r]

/-- The row a key selects (tables built by upserts hold at most one). -/
def lookupKey (table : List ClassificationRow) (a o : ℕ) : Option ClassificationRow :=
  table.find? (fun x => x.article_id = a ∧ x.organization_id = o)

/-- The last upsert of a sequence that targeted a given key. -/
def lastUpsertFor (ups : List ClassificationRow) (a o : ℕ) : Option ClassificationRow :=
  ups.reverse.find? (fun x => x.article_id = a ∧ x.organization_id = o)

/-- The `(content, reasoning, finish_reason)` triple `classify_article`
returns: all-`none` on every failure path. -/
structure LlmCallResult where
  content : Option String
  reasoning : Option String
  finishReason : Option String
deriving DecidableEq

/-- One outcome of `session.post` + response handling inside the retry
loop of `classify_article` / `assess_classification`: an HTTP response
with status, optional numeric `Retry-After` header and payload, or an
exception raised by the request itself. -/
inductive ModelResponse where
  | http (status : ℕ) (retryAfter : Option ℕ) (content reasoning finish : Option String)
  | raisedClientResponseError (status : ℕ)
  | raisedClientError
  | raisedOther

/-- The retry loop of `classify_article` (`LLM_multitenant.py`, identical
backoff in `assess_classification`): on 429, sleep `Retry-After` (default
2) on the first attempt and `Retry-After * 2^attempt` on later ones, then
retry; `raise_for_status` failures and transport errors return the
all-`none` failure immediately; the loop runs at most the fuel's worth of
attempts and exhausting it is the max-retries failure. Returns the sleeps
performed and the result triple. -/
def classifyGo (resp : ℕ → ModelResponse) (maxRetries : ℕ) : ℕ → ℕ → List ℕ × LlmCallResult
  | 0, _ => ([], ⟨none, none, none⟩)
  | fuel + 1, attempt =>
    match resp attempt with
    | .http status retryAfter c r f =>
      if status = 429 then
        let ra := retryAfter.getD 2
        let wait := if attempt = 0 then ra else ra * 2 ^ attempt
        let next := classifyGo resp maxRetries fuel (attempt + 1)
        (wait :: next.1, next.2)
      else if status < 400 then ([], ⟨c, r, f⟩)
      else ([], ⟨none, none, none⟩)
    | .raisedClientResponseError s =>
      if s = 429 ∧ attempt + 1 < maxRetries then
        let next := classifyGo resp maxRetries fuel (attempt + 1)
        ((2 ^ (attempt + 1) : ℕ) :: next.1, next.2)
      else ([], ⟨none, none, none⟩)
    | .raisedClientError => ([], ⟨none, none, none⟩)
    | .raisedOther => ([], ⟨none, none, none⟩)

/-- `classify_article` with its default `max_retries = 3`, abstracted over
the sequence of per-attempt HTTP outcomes. -/
def classify_article (resp : ℕ → ModelResponse) : List ℕ × LlmCallResult :=
  classifyGo resp 3 3 0

/-- Python truthiness of the `(content, reasoning, finish_reason)` tuple:
a 3-tuple is a non-empty tuple, hence always truthy — even when all three
components are `None`. -/
def tupleTruthy (_ : LlmCallResult) : Bool := true

/-- The payload `process_organization` hands to `upsert_classification`
for one article. -/
structure UpsertArgs where
  classification : Option String
  explanation : Option String
  advice : Option String
  reasoning : Option String
  status : String
deriving DecidableEq

/-- The persistence decision of `process_organization`
(`LLM_multitenant.py`) for one article, given the `classify_article`
result. The `if result:` test guards the no-response branch, but `result`
is always a 3-tuple and therefore always truthy, so the model keeps the
source's dead branch behind `tupleTruthy`. -/
def processArticleUpsert (result : LlmCallResult) : UpsertArgs :=
  if tupleTruthy result then
    let t := parse_llm_response result.content
    if optTruthy t.classification ∧ optTruthy t.explanation then
      ⟨t.classification, t.explanation, t.advice, some (result.reasoning.getD ""), "CLASSIFIED"⟩
    else
      ⟨none, none, none, none, "FAILED (to parse response)"⟩
  else
    ⟨none, none, none, none, "FAILED (no response)"⟩

/-- The criticality columns of one `article_classifications` row that
`update_criticality_score`'s UPDATE statement sets. -/
structure CritiRollup where
  criti_score : Option ℤ
  criti_explanation : Option String
  criti_status : Option String
deriving DecidableEq

/-- One `criticality_scores_detail` row: the six scores and six
explanations as the detail INSERT supplies them (`dict.get` with defaults
0 and `''`). -/
structure CritiDetail where
  scores : List Json
  explanations : List Json

/-- The database state the assessment stage writes: per classification id,
the rollup criticality columns (when the row exists) and the detail row
(when one was ever written). -/
structure CritiDb where
  rollup : ℕ → Option CritiRollup
  detail : ℕ → Option CritiDetail

/-- The detail-row payload built from the scores and explanations dicts. -/
def detailRowOf (scores expls : List (String × Json)) : CritiDetail :=
  ⟨criteriaNames.map (fun c => (dGet scores c).getD (.num (decOfNat 0))),
   criteriaNames.map (fun c => (dGet expls c).getD (.str ""))⟩

/-- `update_criticality_score` (`criti_score.py`): UPDATE the rollup
columns of the addressed row (a missing id updates nothing), and upsert
the detail row only when a truthy (non-empty) scores dict was passed and
the status written is `'GIVEN'`. -/
def update_criticality_score (db : CritiDb) (id : ℕ) (score : Option ℤ)
    (expl : Option String) (status : String)
    (scoresDict : Option (List (String × Json)))
    (explsDict : Option (List (String × Json))) : CritiDb :=
  let rollup2 := fun i =>
    if i = id then (db.rollup i).map (fun _ => ⟨score, expl, some status⟩) else db.rollup i
  match scoresDict with
  | some sd =>
    if ¬ sd.isEmpty ∧ status = "GIVEN" then
      ⟨rollup2, fun i => if i = id then some (detailRowOf sd (explsDict.getD [])) else db.detail i⟩
    else ⟨rollup2, db.detail⟩
  | none => ⟨rollup2, db.detail⟩

/-- `process_classifications` on a classification whose model request
failed outright (`result[0] is None`): rollup marked FAILED with the fixed
no-response diagnostic, no detail arguments. -/
def markAssessNoResponse (db : CritiDb) (id : ℕ) : CritiDb :=
  update_criticality_score db id none
    (some "Failed to get response from criticality assessment API") "FAILED" none none

/-- `process_classifications` on a classification whose response parse
failed (`score is None`): rollup marked FAILED with the fixed parse
diagnostic, no detail arguments. -/
def markAssessParseFailed (db : CritiDb) (id : ℕ) : CritiDb :=
  update_criticality_score db id none
    (some "Failed to parse criticality assessment response") "FAILED" none none

/-- One optional entry of a criterion-score map. -/
def optEntry (k : String) : Option Dec → List (String × Json)
  | none => []
  | some q => [(k, .num q)]

/-- A criterion-score map with the six criteria each present or missing. -/
def scoreMapOf (c r t u cl s : Option Dec) : List (String × Json) :=
  optEntry "correctness_factual_soundness" c ++ optEntry "relevance_alignment" r ++
  optEntry "reasoning_transparency" t ++ optEntry "practical_usefulness_actionability" u ++
  optEntry "clarity_communication_quality" cl ++ optEntry "safety_bias_appropriateness" s

/-- The weighted sum the aggregator loop accumulates when the six criteria
hold the given values: six binary64 multiply-round/add-round steps in the
fixed iteration order of the `weights` dict. -/
def wsumOf (c r t u cl s : Dec) : F64 :=
  flAdd (flAdd (flAdd (flAdd (flAdd (flAdd f64Zero
    (flMul (flOfDec c) (flOfDec ⟨25, 2⟩)))
    (flMul (flOfDec r) (flOfDec ⟨20, 2⟩)))
    (flMul (flOfDec t) (flOfDec ⟨20, 2⟩)))
    (flMul (flOfDec u) (flOfDec ⟨20, 2⟩)))
    (flMul (flOfDec cl) (flOfDec ⟨10, 2⟩)))
    (flMul (flOfDec s) (flOfDec ⟨5, 2⟩))

/-- Wrap a raw text in a leading ```` ```json ```` line and a trailing
```` ``` ```` line. -/
def wrapJsonFence (t : String) : String := "```json\n" ++ t ++ "\n```"

/-- A concrete well-formed response used to instantiate the fence-wrapping
equivalence: valid JSON, string fields only, non-empty scores object. -/
def fenceProbe : String :=
  "\x7b\"classification\": \"Threat\", \"explanation\": \"E\", \"advice\": \"A\", " ++
  "\"scores\": \x7b\"correctness_factual_soundness\": \"x\"\x7d, \"overall_summary\": \"ok\"\x7d"

/-- The decoded field list of `fenceProbe`. -/
def fenceProbeFields : List (String × Json) :=
  [("classification", .str "Threat"), ("explanation", .str "E"), ("advice", .str "A"),
   ("scores", .obj [("correctness_factual_soundness", .str "x")]),
   ("overall_summary", .str "ok")]

/-- A concrete assessment response that parses on the strict path. -/
def assessProbe : String :=
  "\x7b\"scores\": \x7b\"correctness_factual_soundness\": 80\x7d, " ++
  "\"explanations\": \x7b\x7d, \"overall_summary\": \"ok\"\x7d"

/-- The structured result of parsing `assessProbe`. -/
def assessProbeResult : AssessResult :=
  ⟨20, "ok", [("correctness_factual_soundness", .num ⟨80, 0⟩)], []⟩

/-- A concrete assessment-stage database used to instantiate the frame
property: one rollup row at id 7, no detail rows. -/
def c7Db : CritiDb :=
  ⟨fun i => if i = 7 then some ⟨some 50, some "x", some "GIVEN"⟩ else none, fun _ => none⟩

/-- A decoded JSON object with an out-of-set classification label. -/
def c5Fields : List (String × Json) := [("classification", Json.str "Bogus")]

/-- The triple the JSON mode produces for `c5Fields`. -/
def c5Triple : Triple :=
  ⟨some "Error: Unknown", some "No explanation provided", some "No specific advice provided"⟩

/-! Helper lemmas -/

theorem decVal_ofNat (n : ℕ) : decVal (decOfNat n) = (n : ℚ) := by
  simp [decVal, decOfNat]

theorem dGet_append (l1 l2 : List (String × Json)) (k : String) :
    dGet (l1 ++ l2) k = (dGet l2 k).or (dGet l1 k) := by
  simp only [dGet, List.reverse_append, List.find?_append]
  cases h : (l2.reverse.find? (fun p => decide (p.1 = k))) <;>
    simp [h, Option.orElse, Option.or]

theorem dGet_optEntry_same (k : String) (v : Option Dec) :
    dGet (optEntry k v) k = v.map Json.num := by
  cases v <;> simp [optEntry, dGet]

theorem dGet_optEntry_ne (k kx : String) (v : Option Dec) (h : ¬ kx = k) :
    dGet (optEntry kx v) k = none := by
  cases v <;> simp [optEntry, dGet, h]

theorem jsonNumVal_mapNum (o : Option Dec) :
    jsonNumVal ((Option.map Json.num o).getD (Json.num (decOfNat 0))) =
      some (o.getD (decOfNat 0)) := by
  cases o <;> rfl

theorem calc_scoreMapOf (c r t u cl s : Option Dec) :
    calculate_criticality_score (scoreMapOf c r t u cl s) =
    .ok (max 0 (min 100 (pyRoundF64 (wsumOf (c.getD (decOfNat 0)) (r.getD (decOfNat 0))
      (t.getD (decOfNat 0)) (u.getD (decOfNat 0)) (cl.getD (decOfNat 0))
      (s.getD (decOfNat 0)))))) := by
  simp only [calculate_criticality_score, criticalityWeights, weightedSumGo, scoreMapOf,
    dGet_append, dGet_optEntry_same, dGet_optEntry_ne, String.reduceEq, ne_eq,
    not_false_eq_true, Option.or_none, Option.none_or, jsonNumVal_mapNum, wsumOf]

set_option maxRecDepth 16384 in
/-- C1 counterexample: on the numeric score map \x7brelevance_alignment: 1,
clarity_communication_quality: 22.99999999999999999\x7d the program's
binary64 accumulation yields the double 2.5000000000000004, which
`round` takes to 3; but the exact decimal weighted sum
(20·1 + 10·22.99999999999999999)/100 = 2.499999999999999999 lies strictly
between 2 and 5/2, so its nearest integer — under any tie-breaking rule —
is 2, and the claim's exact-arithmetic round-then-clamp value is 2 ≠ 3.
The claim's reading of the aggregator as the rounded exact weighted sum is
therefore false of the program. -/
theorem c1_counterexample_float_halfway :
    calculate_criticality_score
        (scoreMapOf none (some ⟨1, 0⟩) none none (some ⟨2299999999999999999, 17⟩) none) =
      .ok 3 ∧
    (25 * 0 + 20 * 1 + 20 * 0 + 20 * 0 + 10 * decVal ⟨2299999999999999999, 17⟩ + 5 * 0) / 100
        < (5 : ℚ) / 2 ∧
    (2 : ℚ) < (25 * 0 + 20 * 1 + 20 * 0 + 20 * 0
      + 10 * decVal ⟨2299999999999999999, 17⟩ + 5 * 0) / 100 ∧
    max 0 (min 100 (pyRound ((25 * 0 + 20 * 1 + 20 * 0 + 20 * 0
      + 10 * decVal ⟨2299999999999999999, 17⟩ + 5 * 0) / 100))) = 2 := by
  refine ⟨by rfl, by norm_num [decVal], by norm_num [decVal], ?_⟩
  have hS : (25 * 0 + 20 * 1 + 20 * 0 + 20 * 0
      + 10 * decVal ⟨2299999999999999999, 17⟩ + 5 * 0) / 100
      = (249999999999999999900000000000000000 : ℚ) / 100000000000000000000000000000000000 := by
    norm_num [decVal]
  rw [hS]
  have hfloor :
      ⌊(249999999999999999900000000000000000 : ℚ) / 100000000000000000000000000000000000⌋
        = 2 := by
    rw [Int.floor_eq_iff]
    norm_num
  norm_num [pyRound, hfloor]

set_option maxRecDepth 16384 in
/-- C1 (amended): `calculate_criticality_score` accumulates the weighted sum
in IEEE-754 binary64 arithmetic (each `score * weight` product and each
`+=` rounded to nearest, ties to even), rounds the accumulated double to
the nearest integer (ties to even) and clamps to [0, 100]. On every map of
the six optional criterion scores it (a) never raises and returns an
integer in [0, 100]; (b) treats a missing criterion exactly as a score of
0, per `scores.get(criterion, 0)`; and (c) maps the example
\x7bcorrectness: 80, relevance: 70, reasoning: 60, usefulness: 90,
clarity: 50, safety: 100\x7d to 74. -/
theorem c1_score_aggregator_float_weighted_sum :
    (∀ c r t u cl s : Option Dec, ∃ z : ℤ,
      calculate_criticality_score (scoreMapOf c r t u cl s) = .ok z ∧ 0 ≤ z ∧ z ≤ 100) ∧
    (∀ c r t u cl s : Option Dec,
      calculate_criticality_score (scoreMapOf c r t u cl s) =
      calculate_criticality_score (scoreMapOf (some (c.getD (decOfNat 0)))
        (some (r.getD (decOfNat 0))) (some (t.getD (decOfNat 0)))
        (some (u.getD (decOfNat 0))) (some (cl.getD (decOfNat 0)))
        (some (s.getD (decOfNat 0))))) ∧
    calculate_criticality_score (scoreMapOf (some ⟨80, 0⟩) (some ⟨70, 0⟩) (some ⟨60, 0⟩)
      (some ⟨90, 0⟩) (some ⟨50, 0⟩) (some ⟨100, 0⟩)) = .ok 74 := by
  refine ⟨?_, ?_, by rfl⟩
  · intro c r t u cl s
    rw [calc_scoreMapOf]
    exact ⟨_, rfl, le_max_left _ _, max_le (by norm_num) (min_le_left _ _)⟩
  · intro c r t u cl s
    rw [calc_scoreMapOf, calc_scoreMapOf]
    simp only [Option.getD_some]

/-- C2: when the model client fails outright, `classify_article` returns the
`(None, None, None)` tuple; because a 3-tuple is truthy, `process_organization`
takes the parse branch and persists status `FAILED (to parse response)` — the
`FAILED (no response)` branch of the source is unreachable, contradicting the
claim that outright client failures are persisted as `FAILED(no-response)`. -/
theorem c2_no_response_persists_parse_failure_status :
    (processArticleUpsert ⟨none, none, none⟩).status = "FAILED (to parse response)" ∧
    (processArticleUpsert ⟨none, none, none⟩).status ≠ "FAILED (no response)" := by
  exact ⟨rfl, by decide⟩

theorem find?_map_upsert (xs : List ClassificationRow) (r : ClassificationRow) (a o : ℕ)
    (h : ¬ (r.article_id = a ∧ r.organization_id = o)) :
    List.find? (fun x => decide (x.article_id = a ∧ x.organization_id = o))
      (xs.map (fun x => if sameKey r x = true then
        { x with
          classification := r.classification
          explanation := r.explanation
          advice := r.advice
          reasoning := r.reasoning
          status := r.status }
      else x)) =
    List.find? (fun x => decide (x.article_id = a ∧ x.organization_id = o)) xs := by
  induction xs with
  | nil => simp
  | cons x xs ih =>
    simp only [List.map_cons]
    by_cases hpx : x.article_id = a ∧ x.organization_id = o
    · have hnk : ¬ sameKey r x = true := by
        simp only [sameKey, Bool.and_eq_true, decide_eq_true_eq]
        rintro ⟨k1, k2⟩
        exact h ⟨k1 ▸ hpx.1, k2 ▸ hpx.2⟩
      rw [if_neg hnk]
      rw [List.find?_cons_of_pos _ (by simp [hpx.1, hpx.2]),
        List.find?_cons_of_pos _ (by simp [hpx.1, hpx.2])]
    · by_cases hk : sameKey r x
      · rw [if_pos hk]
        rw [List.find?_cons_of_neg _ (by simpa using hpx),
          List.find?_cons_of_neg _ (by simpa using hpx)]
        exact ih
      · rw [if_neg hk]
        rw [List.find?_cons_of_neg _ (by simpa using hpx),
          List.find?_cons_of_neg _ (by simpa using hpx)]
        exact ih

theorem upsert_lookup_same (t : List ClassificationRow) (r : ClassificationRow) :
    lookupKey (upsert_classification t r) r.article_id r.organization_id = some r := by
  unfold upsert_classification lookupKey
  by_cases h : t.any (sameKey r)
  · rw [if_pos h]
    induction t with
    | nil => simp at h
    | cons x xs ih =>
      simp only [List.map_cons]
      by_cases hx : sameKey r x
      · have h1 : x.article_id = r.article_id ∧ x.organization_id = r.organization_id := by
          simpa [sameKey] using hx
        simp only [hx, if_true]
        rw [List.find?_cons_of_pos _ (by simp [h1.1, h1.2])]
        have hrow : ({ x with
            classification := r.classification
            explanation := r.explanation
            advice := r.advice
            reasoning := r.reasoning
            status := r.status }) = r := by
          cases r
          cases x
          simp_all
        rw [hrow]
      · have hns : ¬ (x.article_id = r.article_id ∧ x.organization_id = r.organization_id) := by
          simpa [sameKey] using hx
        have hxs : xs.any (sameKey r) := by
          rcases List.any_eq_true.mp h with ⟨y, hy, hyk⟩
          cases hy with
          | head => exact absurd hyk hx
          | tail _ hmem => exact List.any_eq_true.mpr ⟨y, hmem, hyk⟩
        rw [if_neg hx, List.find?_cons_of_neg _ (by simpa using hns)]
        exact ih hxs
  · rw [if_neg h, List.find?_append]
    have hfind : t.find?
        (fun x => decide (x.article_id = r.article_id ∧ x.organization_id = r.organization_id)) = none := by
      rw [List.find?_eq_none]
      intro x hx hcon
      exact h (List.any_eq_true.mpr ⟨x, hx, by simpa [sameKey] using of_decide_eq_true hcon⟩)
    rw [hfind]
    simp [List.find?_cons, List.find?_nil]

theorem upsert_lookup_other (t : List ClassificationRow) (r : ClassificationRow) (a o : ℕ)
    (h : ¬ (r.article_id = a ∧ r.organization_id = o)) :
    lookupKey (upsert_classification t r) a o = lookupKey t a o := by
  unfold upsert_classification lookupKey
  by_cases hc : t.any (sameKey r)
  · rw [if_pos hc]
    exact find?_map_upsert t r a o h
  · rw [if_neg hc, List.find?_append]
    have hr : ([r].find? (fun x => decide (x.article_id = a ∧ x.organization_id = o))) = none := by
      simp [h]
    rw [hr]
    cases hfind : t.find? (fun x => decide (x.article_id = a ∧ x.organization_id = o)) <;>
      simp [hfind, Option.orElse]

theorem countP_upsert_le (t : List ClassificationRow) (r : ClassificationRow) (a o : ℕ)
    (h : t.countP (fun x => x.article_id = a ∧ x.organization_id = o) ≤ 1) :
    (upsert_classification t r).countP (fun x => x.article_id = a ∧ x.organization_id = o) ≤ 1 := by
  unfold upsert_classification
  by_cases hc : t.any (sameKey r)
  · rw [if_pos hc, List.countP_map]
    have hfp : ((fun x => decide (x.article_id = a ∧ x.organization_id = o)) ∘
        (fun x => if sameKey r x = true then
          { x with
            classification := r.classification
            explanation := r.explanation
            advice := r.advice
            reasoning := r.reasoning
            status := r.status }
        else x)) = (fun x => decide (x.article_id = a ∧ x.organization_id = o)) := by
      funext x
      by_cases hk : sameKey r x <;> simp [hk]
    rw [hfp]
    exact h
  · rw [if_neg hc, List.countP_append]
    by_cases hk : r.article_id = a ∧ r.organization_id = o
    · have h0 : t.countP (fun x => x.article_id = a ∧ x.organization_id = o) = 0 := by
        rw [List.countP_eq_zero]
        intro x hx hcon
        apply hc
        rw [List.any_eq_true]
        refine ⟨x, hx, ?_⟩
        have hcon2 := of_decide_eq_true hcon
        simp only [sameKey, Bool.and_eq_true, decide_eq_true_eq]
        exact ⟨hcon2.1.trans hk.1.symm, hcon2.2.trans hk.2.symm⟩
      rw [h0]
      simp [hk.1, hk.2, List.countP_cons]
    · have h1 : ([r].countP (fun x => x.article_id = a ∧ x.organization_id = o)) = 0 := by
        simp [List.countP_cons, hk]
      rw [h1]
      simpa using h

theorem foldl_upsert_lookup (ups : List ClassificationRow) :
    ∀ (init : List ClassificationRow) (a o : ℕ),
      lookupKey (ups.foldl upsert_classification init) a o =
        match lastUpsertFor ups a o with
        | some u => some u
        | none => lookupKey init a o := by
  induction ups with
  | nil => intro init a o; simp [lastUpsertFor]
  | cons u us ih =>
    intro init a o
    rw [List.foldl_cons, ih]
    have hrev : lastUpsertFor (u :: us) a o =
        match lastUpsertFor us a o with
        | some v => some v
        | none => if u.article_id = a ∧ u.organization_id = o then some u else none := by
      unfold lastUpsertFor
      rw [List.reverse_cons, List.find?_append]
      cases hv : us.reverse.find? (fun x => decide (x.article_id = a ∧ x.organization_id = o)) with
      | some v => simp [Option.orElse]
      | none =>
        simp only [Option.orElse, List.find?_cons, List.find?_nil]
        by_cases hku : u.article_id = a ∧ u.organization_id = o
        · simp [hku.1, hku.2]
        · have hdec : (decide (u.article_id = a) && decide (u.organization_id = o)) = false := by
            simp only [← Bool.decide_and]
            exact decide_eq_false hku
          simp [hdec, hku]
    rw [hrev]
    cases hv : lastUpsertFor us a o with
    | some v => rfl
    | none =>
      by_cases hku : u.article_id = a ∧ u.organization_id = o
      · rw [if_pos hku]
        have hsame := upsert_lookup_same init u
        rw [hku.1, hku.2] at hsame
        exact hsame
      · rw [if_neg hku]
        exact upsert_lookup_other init u a o hku

theorem foldl_upsert_countP (ups : List ClassificationRow) :
    ∀ (init : List ClassificationRow) (a o : ℕ),
      init.countP (fun x => x.article_id = a ∧ x.organization_id = o) ≤ 1 →
      (ups.foldl upsert_classification init).countP
        (fun x => x.article_id = a ∧ x.organization_id = o) ≤ 1 := by
  induction ups with
  | nil => intro init a o h; simpa using h
  | cons u us ih =>
    intro init a o h
    rw [List.foldl_cons]
    exact ih (upsert_classification init u) a o (countP_upsert_le init u a o h)

/-- C3: after any sequence of upserts on an initially empty table, at most
one classification row exists per (article, organization) pair; a pair that
was ever upserted holds exactly the row of its last upsert, and a pair never
upserted has no row. -/
theorem c3_upsert_overwrites_single_row (ups : List ClassificationRow) (a o : ℕ) :
    ((ups.foldl upsert_classification []).countP
        (fun x => x.article_id = a ∧ x.organization_id = o) ≤ 1) ∧
    (∀ u, lastUpsertFor ups a o = some u →
      lookupKey (ups.foldl upsert_classification []) a o = some u) ∧
    (lastUpsertFor ups a o = none →
      lookupKey (ups.foldl upsert_classification []) a o = none) := by
  refine ⟨foldl_upsert_countP ups [] a o (by simp), ?_, ?_⟩
  · intro u hu
    rw [foldl_upsert_lookup ups [] a o, hu]
  · intro hu
    rw [foldl_upsert_lookup ups [] a o, hu]
    simp [lookupKey]

theorem c3_upsert_overwrites_single_row_witness :
    lookupKey ([(⟨1, 2, some "Threat", some "e1", some "a1", some "r1", "CLASSIFIED"⟩ : ClassificationRow),
        ⟨1, 2, none, none, none, none, "FAILED (to parse response)"⟩].foldl upsert_classification []) 1 2 =
      some ⟨1, 2, none, none, none, none, "FAILED (to parse response)"⟩ :=
  (c3_upsert_overwrites_single_row
    [⟨1, 2, some "Threat", some "e1", some "a1", some "r1", "CLASSIFIED"⟩,
     ⟨1, 2, none, none, none, none, "FAILED (to parse response)"⟩] 1 2).2.1
    ⟨1, 2, none, none, none, none, "FAILED (to parse response)"⟩ (by decide)

/-- C6: in the model-client retry loop, a 429 response waits the
server-supplied Retry-After delay (2 time-units when the header is absent)
before the first retry and doubles the delay on each subsequent retry, for
at most 3 attempts, after which the call fails; and a 429 with Retry-After 5
followed by a 200 sleeps 5 time-units once and succeeds with no further
backoff. -/
theorem c6_rate_limit_backoff :
    (∀ ra : Option ℕ,
      classify_article (fun _ => .http 429 ra none none none) =
        ([ra.getD 2, ra.getD 2 * 2, ra.getD 2 * 4], ⟨none, none, none⟩)) ∧
    classify_article (fun n => if n = 0 then .http 429 (some 5) none none none
      else .http 200 none (some "C") (some "R") (some "stop")) =
      ([5], ⟨some "C", some "R", some "stop"⟩) := by
  constructor
  · intro ra
    show classifyGo _ 3 3 0 = _
    rw [classifyGo]
    norm_num
    rw [classifyGo]
    norm_num
    rw [classifyGo]
    norm_num
    rw [classifyGo]
    exact ⟨rfl, rfl⟩
  · rfl

/-- C7: when the assessment request or parse fails, only the rollup record
is updated — status FAILED with the respective fixed diagnostic message —
and the detail table is untouched; more generally a detail row is written
only when the persisted status is GIVEN. -/
theorem c7_assess_failure_updates_only_rollup :
    (∀ db id, (markAssessNoResponse db id).detail = db.detail) ∧
    (∀ db id, (markAssessParseFailed db id).detail = db.detail) ∧
    (∀ db id row, db.rollup id = some row →
      (markAssessNoResponse db id).rollup id =
        some ⟨none, some "Failed to get response from criticality assessment API", some "FAILED"⟩) ∧
    (∀ db id row, db.rollup id = some row →
      (markAssessParseFailed db id).rollup id =
        some ⟨none, some "Failed to parse criticality assessment response", some "FAILED"⟩) ∧
    (∀ db id j, j ≠ id → (markAssessNoResponse db id).rollup j = db.rollup j ∧
      (markAssessParseFailed db id).rollup j = db.rollup j) ∧
    (∀ db id score expl status sd ed i, status ≠ "GIVEN" →
      (update_criticality_score db id score expl status sd ed).detail i = db.detail i) := by
  refine ⟨fun db id => rfl, fun db id => rfl, ?_, ?_, ?_, ?_⟩
  · intro db id row h
    simp [markAssessNoResponse, update_criticality_score, h]
  · intro db id row h
    simp [markAssessParseFailed, update_criticality_score, h]
  · intro db id j hj
    constructor <;> simp [markAssessNoResponse, markAssessParseFailed,
      update_criticality_score, hj]
  · intro db id score expl status sd ed i h
    cases sd with
    | none => rfl
    | some l =>
      simp only [update_criticality_score]
      rw [if_neg]
      rintro ⟨-, hg⟩
      exact h hg

theorem c7_assess_failure_updates_only_rollup_witness :
    (markAssessNoResponse c7Db 7).detail = c7Db.detail ∧
    (markAssessNoResponse c7Db 7).rollup 7 =
      some ⟨none, some "Failed to get response from criticality assessment API", some "FAILED"⟩ ∧
    (update_criticality_score c7Db 7 none (some "m") "FAILED"
      (some [("k", Json.str "v")]) none).detail 3 = c7Db.detail 3 :=
  ⟨c7_assess_failure_updates_only_rollup.1 c7Db 7,
   c7_assess_failure_updates_only_rollup.2.2.1 c7Db 7 ⟨some 50, some "x", some "GIVEN"⟩ rfl,
   c7_assess_failure_updates_only_rollup.2.2.2.2.2 c7Db 7 none (some "m") "FAILED"
     (some [("k", Json.str "v")]) none 3 (by decide)⟩

theorem jsonModeResult_expl_isSome (fields : List (String × Json)) (t : Triple)
    (h : jsonModeResult fields = some t) : t.explanation.isSome = true := by
  unfold jsonModeResult at h
  split at h
  · rw [Option.some_inj] at h
    subst h
    rfl
  · exact absurd h (by simp)

theorem fallbackParse_expl_isSome (s : String) :
    ((fallbackParse s).explanation).isSome = true := by
  unfold fallbackParse
  rcases scanResponse s with ⟨c, e, a⟩
  simp

/-- C4 counterexample: the assessment parser returns the all-null
full-failure result on the non-empty input "hello" (no JSON, no
recoverable scores object), refuting the claim that all-null occurs only
for empty or null input. -/
theorem c4_counterexample_nonempty_all_null :
    parse_criticality_response (some "hello") = .ok none ∧ "hello" ≠ "" :=
  ⟨by rfl, by decide⟩

/-- C4 (amended): the classification parser returns the all-null triple
only for null or empty input — every non-empty input yields a non-null
explanation component; the assessment parser returns all-null on null or
empty input, but (per the counterexample) may also return all-null on
non-empty input when no scores object is recoverable. -/
theorem c4_all_null_only_for_empty_input :
    parse_llm_response none = ⟨none, none, none⟩ ∧
    parse_llm_response (some "") = ⟨none, none, none⟩ ∧
    (∀ s : String, s ≠ "" → ((parse_llm_response (some s)).explanation).isSome = true) ∧
    parse_criticality_response none = .ok none ∧
    parse_criticality_response (some "") = .ok none := by
  refine ⟨rfl, rfl, ?_, rfl, rfl⟩
  intro s hs
  simp only [parse_llm_response]
  rw [if_neg hs]
  cases hdec : jsonDecode ((removeFences (pyStripL s.data)).asString) with
  | none => exact fallbackParse_expl_isSome s
  | some j =>
    cases j with
    | obj fields =>
      cases hjm : jsonModeResult fields with
      | none => simp only [hjm]; exact fallbackParse_expl_isSome s
      | some t => simp only [hjm]; exact jsonModeResult_expl_isSome fields t hjm
    | null => exact fallbackParse_expl_isSome s
    | bool b => exact fallbackParse_expl_isSome s
    | num v => exact fallbackParse_expl_isSome s
    | str v => exact fallbackParse_expl_isSome s
    | arr xs => exact fallbackParse_expl_isSome s

theorem c4_all_null_only_for_empty_input_witness :
    ((parse_llm_response (some "x")).explanation).isSome = true :=
  c4_all_null_only_for_empty_input.2.2.1 "x" (by decide)

theorem validClassification_cases (v : String) (h : validClassification v = true) :
    v = "Threat" ∨ v = "Opportunity" ∨ v = "Neutral" := by
  simp only [validClassification, Bool.or_eq_true, decide_eq_true_eq] at h
  tauto

/-- C5 counterexample: in fallback mode, the line "Classification:" yields
an extracted label that is the empty string, and the parser returns that
empty string verbatim rather than the "Error: Unknown" sentinel. -/
theorem c5_counterexample_empty_label_not_sentinel :
    (parse_llm_response (some "Classification:\nExplanation: x")).classification = some "" ∧
    ("" : String) ≠ "Error: Unknown" :=
  ⟨by rfl, by decide⟩

/-- C5 (amended): in JSON mode the returned label is always one of Threat,
Opportunity, Neutral or the "Error: Unknown" sentinel (any out-of-set
value, including the empty string, is normalized); in fallback mode only a
non-empty out-of-set extracted label is normalized to the sentinel — a
non-empty returned label is always in the four-value set, but an empty
extracted label is returned as the empty string and an absent one as null. -/
theorem c5_invalid_label_normalized :
    (∀ (fields : List (String × Json)) (t : Triple), jsonModeResult fields = some t →
      t.classification = some "Threat" ∨ t.classification = some "Opportunity" ∨
      t.classification = some "Neutral" ∨ t.classification = some "Error: Unknown") ∧
    (∀ (s : String) (v : String), (fallbackParse s).classification = some v → v ≠ "" →
      v = "Threat" ∨ v = "Opportunity" ∨ v = "Neutral" ∨ v = "Error: Unknown") := by
  constructor
  · intro fields t h
    unfold jsonModeResult at h
    split at h
    · rename_i c e a h1 h2 h3
      rw [Option.some_inj] at h
      subst h
      simp only []
      by_cases hv : validClassification c = true
      · rw [if_pos hv]
        rcases validClassification_cases c hv with h | h | h
        · exact Or.inl (by rw [h])
        · exact Or.inr (Or.inl (by rw [h]))
        · exact Or.inr (Or.inr (Or.inl (by rw [h])))
      · rw [if_neg hv]
        exact Or.inr (Or.inr (Or.inr rfl))
    · exact absurd h (by simp)
  · intro s v h hv
    unfold fallbackParse at h
    rcases hscan : scanResponse s with ⟨c, e, a⟩
    rw [hscan] at h
    simp only [] at h
    cases c with
    | none => exact absurd h (by simp)
    | some w =>
      simp only [] at h
      by_cases hw : w ≠ "" ∧ ¬ validClassification w = true
      · rw [if_pos hw, Option.some_inj] at h
        exact Or.inr (Or.inr (Or.inr h.symm))
      · rw [if_neg hw, Option.some_inj] at h
        subst h
        rw [Classical.not_and_iff_or_not_not] at hw
        rcases hw with hw | hw
        · exact absurd (by simpa using hw) hv
        · rcases validClassification_cases w (by simpa using hw) with h | h | h
          · exact Or.inl h
          · exact Or.inr (Or.inl h)
          · exact Or.inr (Or.inr (Or.inl h))

theorem c5_invalid_label_normalized_witness :
    c5Triple.classification = some "Threat" ∨ c5Triple.classification = some "Opportunity" ∨
    c5Triple.classification = some "Neutral" ∨ c5Triple.classification = some "Error: Unknown" :=
  c5_invalid_label_normalized.1 c5Fields c5Triple (by rfl)

/-- C9 counterexample: in JSON mode a missing explanation falls back to
the fixed string "No explanation provided", not to the raw text as the
claim states. -/
theorem c9_counterexample_json_mode_fixed_fallback :
    (parse_llm_response
        (some "\x7b\"classification\": \"Threat\", \"advice\": \"Y\"\x7d")).explanation =
      some "No explanation provided" ∧
    "No explanation provided" ≠ "\x7b\"classification\": \"Threat\", \"advice\": \"Y\"\x7d" :=
  ⟨by rfl, by decide⟩

/-- C9 (amended): in JSON mode a missing or empty explanation falls back
to the fixed string "No explanation provided" (not the raw text) and a
missing or empty advice to the fixed placeholder; in fallback mode a
missing or empty extracted explanation falls back to the raw text and
missing or empty advice to the placeholder; the scenario
"Classification: Opportunity\nExplanation: grows market" yields
(Opportunity, "grows market", placeholder advice). -/
theorem c9_missing_field_fallbacks :
    (∀ (fields : List (String × Json)) (t : Triple), jsonModeResult fields = some t →
      (getStrStripped fields "explanation" = some "" → t.explanation = some "No explanation provided") ∧
      (getStrStripped fields "advice" = some "" → t.advice = some "No specific advice provided")) ∧
    (∀ s : String, s ≠ "" →
      ((scanResponse s).2.1 = none ∨ (scanResponse s).2.1 = some "") →
      (fallbackParse s).explanation = some s) ∧
    (∀ s : String,
      ((scanResponse s).2.2 = none ∨ (scanResponse s).2.2 = some "") →
      (fallbackParse s).advice = some "No specific advice provided") ∧
    parse_llm_response (some "Classification: Opportunity\nExplanation: grows market") =
      ⟨some "Opportunity", some "grows market", some "No specific advice provided"⟩ := by
  refine ⟨?_, ?_, ?_, by rfl⟩
  · intro fields t h
    unfold jsonModeResult at h
    split at h
    · rename_i c e a h1 h2 h3
      rw [Option.some_inj] at h
      subst h
      constructor
      · intro he
        rw [h2, Option.some_inj] at he
        subst he
        simp
      · intro ha
        rw [h3, Option.some_inj] at ha
        subst ha
        simp
    · exact absurd h (by simp)
  · intro s hs he
    unfold fallbackParse
    rcases hscan : scanResponse s with ⟨c, e, a⟩
    simp only [] at he ⊢
    have het : optTruthy e = false := by
      rw [hscan] at he
      rcases he with he | he <;> simp only [] at he <;> simp [he, optTruthy]
    rw [het]
    simp only [Bool.false_eq_true, if_false, if_neg hs]
  · intro s ha
    unfold fallbackParse
    rcases hscan : scanResponse s with ⟨c, e, a⟩
    simp only [] at ha ⊢
    have hat : optTruthy a = false := by
      rw [hscan] at ha
      rcases ha with ha | ha <;> simp only [] at ha <;> simp [ha, optTruthy]
    rw [hat]
    simp

theorem c9_missing_field_fallbacks_witness :
    (fallbackParse "Classification: Threat").explanation = some "Classification: Threat" :=
  c9_missing_field_fallbacks.2.1 "Classification: Threat" (by decide) (Or.inl (by rfl))

theorem strictAssess_consistent (fields : List (String × Json))
    (x : Except Unit (Option AssessResult)) (res : AssessResult)
    (hx : strictAssess fields = some x) (hr : x = .ok (some res)) :
    calculate_criticality_score res.scores = .ok res.final_score := by
  subst hr
  unfold strictAssess at hx
  split at hx
  · rw [Option.some_inj] at hx
    split at hx
    · split at hx
      · exact absurd hx (by simp)
      · split at hx
        all_goals
          split at hx
          · exact absurd hx (by simp)
          · rename_i v hv
            rw [Except.ok.injEq, Option.some_inj] at hx
            subst hx
            simpa using hv
    · exact absurd hx (by simp)
  · exact absurd hx (by simp)

theorem assessFallback_consistent (s : String) (res : AssessResult)
    (h : assessFallback s = .ok (some res)) :
    calculate_criticality_score res.scores = .ok res.final_score := by
  unfold assessFallback at h
  split at h
  · split at h
    all_goals
      dsimp only [] at h
      split at h
      · exact absurd h (by simp)
      · split at h
        · rename_i v hv
          rw [Except.ok.injEq, Option.some_inj] at h
          subst h
          simpa using hv
        · exact absurd h (by simp)
  · exact absurd h (by simp)

/-- C10: whenever the assessment parser returns a non-null result, the
returned final score equals the score aggregator applied to the returned
scores dict, on both the strict JSON path and the regex fallback path. -/
theorem c10_final_score_matches_scores :
    ∀ (resp : Option String) (res : AssessResult),
      parse_criticality_response resp = .ok (some res) →
      calculate_criticality_score res.scores = .ok res.final_score := by
  intro resp res h
  unfold parse_criticality_response at h
  match resp with
  | none => exact absurd h (by simp)
  | some s =>
    simp only [] at h
    by_cases hs : s = ""
    · rw [if_pos hs] at h
      exact absurd h (by simp)
    · rw [if_neg hs] at h
      cases hdec : jsonDecode ((removeFences (pyStripL s.data)).asString) with
      | none =>
        rw [hdec] at h
        exact assessFallback_consistent s res h
      | some j =>
        rw [hdec] at h
        cases j with
        | obj fields =>
          dsimp only [] at h
          cases hsa : strictAssess fields with
          | none =>
            rw [hsa] at h
            exact assessFallback_consistent s res h
          | some x =>
            rw [hsa] at h
            exact strictAssess_consistent fields x res hsa h
        | null => exact assessFallback_consistent s res h
        | bool b => exact assessFallback_consistent s res h
        | num v => exact assessFallback_consistent s res h
        | str v => exact assessFallback_consistent s res h
        | arr xs => exact assessFallback_consistent s res h

set_option maxRecDepth 8192 in
theorem c10_final_score_matches_scores_witness :
    calculate_criticality_score assessProbeResult.scores = .ok assessProbeResult.final_score :=
  c10_final_score_matches_scores (some assessProbe) assessProbeResult (by rfl)

theorem dropWhile_cons_false (p : Char → Bool) (a : Char) (l : List Char) (h : p a = false) :
    List.dropWhile p (a :: l) = a :: l := by
  simp [List.dropWhile, h]

theorem chop_nl_cons (c : Char) (l : List Char) (h : isPyWs c = false) :
    chopToLastNl ('\n' :: c :: l) = some (c :: l) := by
  have hinner : chopToLastNl (c :: l) = none := by
    rw [chopToLastNl, if_neg]
    simp [h]
  rw [chopToLastNl, if_pos (by decide), hinner]
  simp

theorem tryLeadFence_wrap (c : Char) (l : List Char) (h : isPyWs c = false) :
    tryLeadFence ('`' :: '`' :: '`' :: 'j' :: 's' :: 'o' :: 'n' :: '\n' :: c :: l) = c :: l := by
  simp [tryLeadFence, chop_nl_cons c l h]

theorem tryTrailFence_append (l : List Char) :
    tryTrailFence (l ++ ['\n', '`', '`', '`']) = l := by
  simp [tryTrailFence, List.reverse_append, isPyWs]

theorem pyStripL_backtick_ends (Y : List Char) :
    pyStripL (('`' :: Y) ++ ['\n', '`', '`', '`']) = ('`' :: Y) ++ ['\n', '`', '`', '`'] := by
  unfold pyStripL
  rw [List.cons_append, dropWhile_cons_false isPyWs '`' _ (by decide)]
  rw [show ('`' :: (Y ++ ['\n', '`', '`', '`'])).reverse
      = '`' :: ('`' :: '`' :: '\n' :: (Y.reverse ++ ['`'])) from by simp]
  rw [dropWhile_cons_false isPyWs '`' _ (by decide)]
  simp

theorem strip_head_not_ws (c : Char) (l : List Char) (h : pyStripL (c :: l) = c :: l) :
    isPyWs c = false := by
  by_contra hc
  rw [Bool.not_eq_false] at hc
  have hlen : (pyStripL (c :: l)).length ≤ l.length := by
    unfold pyStripL
    rw [List.dropWhile_cons_of_pos (by simpa using hc)]
    calc ((List.dropWhile isPyWs l).reverse.dropWhile isPyWs).reverse.length
        = ((List.dropWhile isPyWs l).reverse.dropWhile isPyWs).length := by
          rw [List.length_reverse]
      _ ≤ (List.dropWhile isPyWs l).reverse.length :=
          List.Sublist.length_le (List.dropWhile_sublist _)
      _ = (List.dropWhile isPyWs l).length := by rw [List.length_reverse]
      _ ≤ l.length := List.Sublist.length_le (List.dropWhile_sublist _)
  rw [h] at hlen
  simp at hlen

/-- C8 (amended): wrapping a raw text in a ```json code fence parses
identically to the unwrapped text whenever the unwrapped text is already
stripped, does not itself begin with a fence, and takes the strict JSON
path in both parsers (decodes to an object, with string-or-missing
classification fields and a string-or-missing overall summary); in
fallback mode the results can differ because the raw, still-fenced text is
scanned and used as the explanation fallback. -/
theorem c8_fence_wrapping_invariant_json_mode (t : String) (fields : List (String × Json))
    (h1 : pyStripL t.data = t.data)
    (h2 : t.data.take 3 ≠ ['`', '`', '`'])
    (h3 : jsonDecode t = some (.obj fields))
    (h4 : jsonModeResult fields ≠ none)
    (h5 : ∃ os, (dGet fields "overall_summary").getD (.str "") = Json.str os) :
    parse_llm_response (some (wrapJsonFence t)) = parse_llm_response (some t) ∧
    parse_criticality_response (some (wrapJsonFence t)) = parse_criticality_response (some t) := by
  have ht : t ≠ "" := by
    intro hte
    rw [hte] at h3
    exact Option.noConfusion ((show jsonDecode "" = none from rfl).symm.trans h3)
  obtain ⟨c, l, hd⟩ : ∃ c l, t.data = c :: l := by
    cases hdata : t.data with
    | nil =>
      exfalso
      apply ht
      cases t with
      | mk d =>
        simp only [] at hdata
        rw [hdata]
    | cons c l => exact ⟨c, l, rfl⟩
  have hcw : isPyWs c = false := strip_head_not_ws c l (by rw [← hd]; exact h1)
  have hW : (wrapJsonFence t).data
      = ('`' :: ('`' :: '`' :: 'j' :: 's' :: 'o' :: 'n' :: '\n' :: t.data)) ++ ['\n', '`', '`', '`'] := by
    show ("```json\n" ++ t ++ "\n```").data = _
    rw [String.data_append, String.data_append]
    rfl
  have hwne : wrapJsonFence t ≠ "" := by
    intro hte
    have hdat : (wrapJsonFence t).data = [] := by rw [hte]
    rw [hW] at hdat
    simp at hdat
  have hstrip : pyStripL (wrapJsonFence t).data = (wrapJsonFence t).data := by
    rw [hW]
    exact pyStripL_backtick_ends _
  have hrf : removeFences (pyStripL (wrapJsonFence t).data) = t.data := by
    rw [hstrip, hW]
    unfold removeFences
    rw [if_pos (by simp)]
    have harg : ('`' :: ('`' :: '`' :: 'j' :: 's' :: 'o' :: 'n' :: '\n' :: t.data)) ++ ['\n', '`', '`', '`']
        = '`' :: '`' :: '`' :: 'j' :: 's' :: 'o' :: 'n' :: '\n' :: c :: (l ++ ['\n', '`', '`', '`']) := by
      rw [hd]
      simp
    rw [harg, tryLeadFence_wrap c _ hcw,
      show c :: (l ++ ['\n', '`', '`', '`']) = (c :: l) ++ ['\n', '`', '`', '`'] from rfl,
      tryTrailFence_append, hd]
  have hrt : removeFences (pyStripL t.data) = t.data := by
    rw [h1]
    unfold removeFences
    rw [if_neg h2]
  have hat : (t.data).asString = t := by
    cases t with
    | mk d => rfl
  constructor
  · simp only [parse_llm_response]
    rw [if_neg hwne, if_neg ht]
    rw [hrf, hrt, hat, h3]
    cases hjm : jsonModeResult fields with
    | none => exact absurd hjm h4
    | some r => simp only [hjm]
  · obtain ⟨os, hos⟩ := h5
    have hsa : ∃ x, strictAssess fields = some x := by
      unfold strictAssess
      rw [hos]
      exact ⟨_, rfl⟩
    obtain ⟨x, hx⟩ := hsa
    simp only [parse_criticality_response]
    rw [if_neg hwne, if_neg ht]
    rw [hrf, hrt, hat, h3]
    simp only [hx]

set_option maxRecDepth 4096 in
/-- C8 counterexample: for the raw text "Classification: Threat" (which
only parses in fallback mode), the fenced and unwrapped forms parse
differently — the fenced form's explanation falls back to the raw text
fences included. -/
theorem c8_counterexample_fallback_mode_differs :
    parse_llm_response (some (wrapJsonFence "Classification: Threat")) ≠
      parse_llm_response (some "Classification: Threat") := by
  decide

set_option maxRecDepth 4096 in
theorem c8_fence_wrapping_invariant_json_mode_witness :
    parse_llm_response (some (wrapJsonFence fenceProbe)) = parse_llm_response (some fenceProbe) ∧
    parse_criticality_response (some (wrapJsonFence fenceProbe)) =
      parse_criticality_response (some fenceProbe) :=
  c8_fence_wrapping_invariant_json_mode fenceProbe fenceProbeFields (by rfl) (by decide) (by rfl) (by decide) ⟨"ok", by rfl⟩
